import Mathlib

/-!
Verification of the procare-download utility (login.py, dashboard_scraper.py,
main.py) against its natural-language specification.

The Python sources are shallowly embedded as Lean functions.  External
effects are modelled as explicit inputs:

* `requests.get`/`requests.post` become oracle functions from a request
  value to a response value; a `RequestException` (connection failure,
  or the `HTTPError` raised by `raise_for_status`, or the
  `JSONDecodeError` raised by `response.json()` — all subclasses of
  `RequestException`) is the `.error` case of an `Except`.
* `datetime.now().strftime('%Y-%m-%d')` and
  `datetime.now().strftime("%Y%m%d_%H%M%S")` become the string
  parameters `nowDate` and `nowTs`.
* `dateutil.parser.parse` followed by `strftime('%Y-%m-%d')` becomes the
  oracle `dparse : String → Option String` (`none` = parse failure).
* `datetime.strptime(s, '%Y-%m-%d')` validation in main.py becomes the
  oracle `strptimeOk : String → Bool`.

Python truthiness of optional strings (`if date_to:` etc.) is modelled
explicitly: a value is truthy iff it is present and non-empty.
-/

/-- Python truthiness of an optional string: `None`, missing and `""` are falsy. -/
def truthyOptStr (o : Option String) : Bool :=
  match o with
  | some s => s ≠ ""
  | none => false

/-- Keep an optional string only when it is Python-truthy
(used for `if date_to: params[...] = date_to` / `if date_from: ...`,
dashboard_scraper.py lines 98-101). -/
def optTruthy (o : Option String) : Option String :=
  match o with
  | some s => if s = "" then none else some s
  | none => none

/-! ## Filename extraction (dashboard_scraper.py, `extract_filename_from_url`) -/

/-- Character class `[a-f0-9-]` of the regexes in `extract_filename_from_url`. -/
def isHexTokenChar (c : Char) : Bool :=
  ('a' ≤ c && c ≤ 'f') || ('0' ≤ c && c ≤ '9') || c = '-'

/-- Anchored match of `/([a-f0-9-]{36})\.(mp4|mov|avi)` at the head of the
character list: a `/`, then exactly 36 characters of `[a-f0-9-]`, then a
dot and one of the three video extensions.  Returns (token, extension). -/
def matchVideoAt (l : List Char) : Option (String × String) :=
  match l with
  | c :: rest =>
    if c = '/' then
      let tok := rest.take 36
      if tok.length = 36 ∧ tok.all isHexTokenChar then
        let after := rest.drop 36
        if after.take 4 = ['.', 'm', 'p', '4'] then some (⟨tok⟩, "mp4")
        else if after.take 4 = ['.', 'm', 'o', 'v'] then some (⟨tok⟩, "mov")
        else if after.take 4 = ['.', 'a', 'v', 'i'] then some (⟨tok⟩, "avi")
        else none
      else none
    else none
  | [] => none

/-- `re.search` of the video pattern: try a match at every position, left to
right (Python `re.search` returns the leftmost match). -/
def searchVideo : List Char → Option (String × String)
  | [] => none
  | c :: rest =>
    match matchVideoAt (c :: rest) with
    | some r => some r
    | none => searchVideo rest

/-- Anchored match of `/([a-f0-9-]{36})\.jpg` at the head of the list. -/
def matchJpgAt (l : List Char) : Option String :=
  match l with
  | c :: rest =>
    if c = '/' then
      let tok := rest.take 36
      if tok.length = 36 ∧ tok.all isHexTokenChar then
        if (rest.drop 36).take 4 = ['.', 'j', 'p', 'g'] then some ⟨tok⟩
        else none
      else none
    else none
  | [] => none

/-- `re.search` of the photo pattern, leftmost match. -/
def searchJpg : List Char → Option String
  | [] => none
  | c :: rest =>
    match matchJpgAt (c :: rest) with
    | some r => some r
    | none => searchJpg rest

/-- dashboard_scraper.py lines 212-229.  `nowTs` stands for
`datetime.now().strftime("%Y%m%d_%H%M%S")` evaluated in the fallback
branch. -/
def extract_filename_from_url (url : String) (file_extension : String)
    (nowTs : String) : String :=
  if file_extension = "mp4" then
    match searchVideo url.data with
    | some (tok, actual_ext) => tok ++ "." ++ actual_ext
    | none => "media_" ++ nowTs ++ "." ++ file_extension
  else
    match searchJpg url.data with
    | some tok => tok ++ ".jpg"
    | none => "media_" ++ nowTs ++ "." ++ file_extension

/-! Declarative (spec-side) description of what the regexes accept, used to
state the corrected form of the filename-extraction property. -/

/-- A 36-character token over `[a-f0-9-]`. -/
def IsHexToken (tok : String) : Prop :=
  tok.length = 36 ∧ tok.data.all isHexTokenChar = true

/-- The URL contains `/<token>.<ext>` for a 36-char hex token and a video
extension, as a plain substring decomposition. -/
def VideoOcc (url tok ext : String) : Prop :=
  IsHexToken tok ∧ (ext = "mp4" ∨ ext = "mov" ∨ ext = "avi") ∧
  ∃ pre suf : String, url = pre ++ "/" ++ tok ++ "." ++ ext ++ suf

/-- The URL contains `/<token>.jpg` for a 36-char hex token. -/
def JpgOcc (url tok : String) : Prop :=
  IsHexToken tok ∧ ∃ pre suf : String, url = pre ++ "/" ++ tok ++ ".jpg" ++ suf

/-! ### Correctness of the embedded regex search -/

theorem matchVideoAt_sound {l : List Char} {t e : String}
    (h : matchVideoAt l = some (t, e)) :
    t.data.length = 36 ∧ t.data.all isHexTokenChar = true ∧
    (e = "mp4" ∨ e = "mov" ∨ e = "avi") ∧
    ∃ suf : List Char, l = '/' :: (t.data ++ '.' :: (e.data ++ suf)) := by
  match l with
  | [] => simp [matchVideoAt] at h
  | c :: rest =>
    by_cases hc : c = '/'
    · subst hc
      simp only [matchVideoAt, if_pos rfl] at h
      by_cases htok : (rest.take 36).length = 36 ∧ (rest.take 36).all isHexTokenChar
      · rw [if_pos htok] at h
        have hsplit : rest = rest.take 36 ++ rest.drop 36 :=
          (List.take_append_drop 36 rest).symm
        by_cases h1 : (rest.drop 36).take 4 = ['.', 'm', 'p', '4']
        · rw [if_pos h1] at h
          obtain ⟨ht, he⟩ : (⟨rest.take 36⟩ : String) = t ∧ "mp4" = e := by
            constructor <;> [exact congrArg Prod.fst (Option.some.inj h);
              exact congrArg Prod.snd (Option.some.inj h)]
          subst ht; subst he
          refine ⟨htok.1, htok.2, Or.inl rfl, (rest.drop 36).drop 4, ?_⟩
          have hafter : rest.drop 36 =
              '.' :: ('m' :: 'p' :: '4' :: ((rest.drop 36).drop 4)) := by
            conv_lhs => rw [← List.take_append_drop 4 (rest.drop 36)]
            rw [h1]; rfl
          rw [show ("mp4" : String).data = ['m', 'p', '4'] from rfl]
          conv_lhs => rw [hsplit, hafter]
          simp
        · rw [if_neg h1] at h
          by_cases h2 : (rest.drop 36).take 4 = ['.', 'm', 'o', 'v']
          · rw [if_pos h2] at h
            obtain ⟨ht, he⟩ : (⟨rest.take 36⟩ : String) = t ∧ "mov" = e := by
              constructor <;> [exact congrArg Prod.fst (Option.some.inj h);
                exact congrArg Prod.snd (Option.some.inj h)]
            subst ht; subst he
            refine ⟨htok.1, htok.2, Or.inr (Or.inl rfl), (rest.drop 36).drop 4, ?_⟩
            have hafter : rest.drop 36 =
                '.' :: ('m' :: 'o' :: 'v' :: ((rest.drop 36).drop 4)) := by
              conv_lhs => rw [← List.take_append_drop 4 (rest.drop 36)]
              rw [h2]; rfl
            rw [show ("mov" : String).data = ['m', 'o', 'v'] from rfl]
            conv_lhs => rw [hsplit, hafter]
            simp
          · rw [if_neg h2] at h
            by_cases h3 : (rest.drop 36).take 4 = ['.', 'a', 'v', 'i']
            · rw [if_pos h3] at h
              obtain ⟨ht, he⟩ : (⟨rest.take 36⟩ : String) = t ∧ "avi" = e := by
                constructor <;> [exact congrArg Prod.fst (Option.some.inj h);
                  exact congrArg Prod.snd (Option.some.inj h)]
              subst ht; subst he
              refine ⟨htok.1, htok.2, Or.inr (Or.inr rfl), (rest.drop 36).drop 4, ?_⟩
              have hafter : rest.drop 36 =
                  '.' :: ('a' :: 'v' :: 'i' :: ((rest.drop 36).drop 4)) := by
                conv_lhs => rw [← List.take_append_drop 4 (rest.drop 36)]
                rw [h3]; rfl
              rw [show ("avi" : String).data = ['a', 'v', 'i'] from rfl]
              conv_lhs => rw [hsplit, hafter]
              simp
            · rw [if_neg h3] at h; exact absurd h (by simp)
      · rw [if_neg htok] at h; exact absurd h (by simp)
    · simp [matchVideoAt, hc] at h

theorem matchVideoAt_complete {tok : List Char} {e : String} (suf : List Char)
    (hlen : tok.length = 36) (hall : tok.all isHexTokenChar = true)
    (he : e = "mp4" ∨ e = "mov" ∨ e = "avi") :
    (matchVideoAt ('/' :: (tok ++ '.' :: (e.data ++ suf)))).isSome = true := by
  have htake : (tok ++ '.' :: (e.data ++ suf)).take 36 = tok :=
    List.take_left' hlen
  have hdrop : (tok ++ '.' :: (e.data ++ suf)).drop 36 = '.' :: (e.data ++ suf) :=
    List.drop_left' hlen
  have hall' : ∀ x ∈ tok, isHexTokenChar x = true := List.all_eq_true.mp hall
  rcases he with he | he | he <;> subst he <;>
    simp [matchVideoAt, htake, hdrop, hlen, List.take]
  all_goals exact hall'

theorem searchVideo_sound {l : List Char} {t e : String}
    (h : searchVideo l = some (t, e)) :
    t.data.length = 36 ∧ t.data.all isHexTokenChar = true ∧
    (e = "mp4" ∨ e = "mov" ∨ e = "avi") ∧
    ∃ pre suf : List Char, l = pre ++ '/' :: (t.data ++ '.' :: (e.data ++ suf)) := by
  induction l with
  | nil => simp [searchVideo] at h
  | cons c rest ih =>
    rw [searchVideo] at h
    cases hm : matchVideoAt (c :: rest) with
    | some p =>
      rw [hm] at h
      obtain ⟨t', e'⟩ := p
      have hpe : (t', e') = (t, e) := Option.some.inj h
      have ht : t' = t := congrArg Prod.fst hpe
      have he : e' = e := congrArg Prod.snd hpe
      subst ht; subst he
      obtain ⟨h1, h2, h3, suf, hdec⟩ := matchVideoAt_sound hm
      exact ⟨h1, h2, h3, [], suf, hdec⟩
    | none =>
      rw [hm] at h
      obtain ⟨h1, h2, h3, pre, suf, hdec⟩ := ih h
      exact ⟨h1, h2, h3, c :: pre, suf, by rw [List.cons_append, hdec]⟩

theorem searchVideo_complete (pre : List Char) {tok : List Char} {e : String}
    (suf : List Char) (hlen : tok.length = 36)
    (hall : tok.all isHexTokenChar = true)
    (he : e = "mp4" ∨ e = "mov" ∨ e = "avi") :
    (searchVideo (pre ++ '/' :: (tok ++ '.' :: (e.data ++ suf)))).isSome = true := by
  induction pre with
  | nil =>
    simp only [List.nil_append]
    rw [searchVideo]
    have := matchVideoAt_complete suf hlen hall he
    cases hm : matchVideoAt ('/' :: (tok ++ '.' :: (e.data ++ suf))) with
    | some p => simp
    | none => rw [hm] at this; simp at this
  | cons c pre' ih =>
    rw [List.cons_append, searchVideo]
    cases hm : matchVideoAt (c :: (pre' ++ '/' :: (tok ++ '.' :: (e.data ++ suf)))) with
    | some p => simp
    | none => simpa using ih

theorem matchJpgAt_sound {l : List Char} {t : String}
    (h : matchJpgAt l = some t) :
    t.data.length = 36 ∧ t.data.all isHexTokenChar = true ∧
    ∃ suf : List Char, l = '/' :: (t.data ++ '.' :: ('j' :: 'p' :: 'g' :: suf)) := by
  match l with
  | [] => simp [matchJpgAt] at h
  | c :: rest =>
    by_cases hc : c = '/'
    · subst hc
      simp only [matchJpgAt, if_pos rfl] at h
      by_cases htok : (rest.take 36).length = 36 ∧ (rest.take 36).all isHexTokenChar
      · rw [if_pos htok] at h
        by_cases h1 : (rest.drop 36).take 4 = ['.', 'j', 'p', 'g']
        · rw [if_pos h1] at h
          obtain rfl : (⟨rest.take 36⟩ : String) = t := Option.some.inj h
          refine ⟨htok.1, htok.2, (rest.drop 36).drop 4, ?_⟩
          have hafter : rest.drop 36 =
              '.' :: ('j' :: 'p' :: 'g' :: ((rest.drop 36).drop 4)) := by
            conv_lhs => rw [← List.take_append_drop 4 (rest.drop 36)]
            rw [h1]; rfl
          conv_lhs => rw [← List.take_append_drop 36 rest, hafter]
        · rw [if_neg h1] at h; exact absurd h (by simp)
      · rw [if_neg htok] at h; exact absurd h (by simp)
    · simp [matchJpgAt, hc] at h

theorem matchJpgAt_complete {tok : List Char} (suf : List Char)
    (hlen : tok.length = 36) (hall : tok.all isHexTokenChar = true) :
    (matchJpgAt ('/' :: (tok ++ '.' :: ('j' :: 'p' :: 'g' :: suf)))).isSome = true := by
  have htake : (tok ++ '.' :: ('j' :: 'p' :: 'g' :: suf)).take 36 = tok :=
    List.take_left' hlen
  have hdrop : (tok ++ '.' :: ('j' :: 'p' :: 'g' :: suf)).drop 36 =
      '.' :: ('j' :: 'p' :: 'g' :: suf) := List.drop_left' hlen
  have hall' : ∀ x ∈ tok, isHexTokenChar x = true := List.all_eq_true.mp hall
  simp [matchJpgAt, htake, hdrop, hlen, List.take]
  exact hall'

theorem searchJpg_sound {l : List Char} {t : String}
    (h : searchJpg l = some t) :
    t.data.length = 36 ∧ t.data.all isHexTokenChar = true ∧
    ∃ pre suf : List Char, l = pre ++ '/' :: (t.data ++ '.' :: ('j' :: 'p' :: 'g' :: suf)) := by
  induction l with
  | nil => simp [searchJpg] at h
  | cons c rest ih =>
    rw [searchJpg] at h
    cases hm : matchJpgAt (c :: rest) with
    | some t' =>
      rw [hm] at h
      obtain rfl : t' = t := Option.some.inj h
      obtain ⟨h1, h2, suf, hdec⟩ := matchJpgAt_sound hm
      exact ⟨h1, h2, [], suf, hdec⟩
    | none =>
      rw [hm] at h
      obtain ⟨h1, h2, pre, suf, hdec⟩ := ih h
      exact ⟨h1, h2, c :: pre, suf, by rw [List.cons_append, hdec]⟩

theorem searchJpg_complete (pre : List Char) {tok : List Char}
    (suf : List Char) (hlen : tok.length = 36)
    (hall : tok.all isHexTokenChar = true) :
    (searchJpg (pre ++ '/' :: (tok ++ '.' :: ('j' :: 'p' :: 'g' :: suf)))).isSome = true := by
  induction pre with
  | nil =>
    simp only [List.nil_append]
    rw [searchJpg]
    have := matchJpgAt_complete suf hlen hall
    cases hm : matchJpgAt ('/' :: (tok ++ '.' :: ('j' :: 'p' :: 'g' :: suf))) with
    | some t => simp
    | none => rw [hm] at this; simp at this
  | cons c pre' ih =>
    rw [List.cons_append, searchJpg]
    cases hm : matchJpgAt (c :: (pre' ++ '/' :: (tok ++ '.' :: ('j' :: 'p' :: 'g' :: suf)))) with
    | some t => simp
    | none => simpa using ih

theorem videoOcc_of_list {url t e : String}
    (h1 : t.data.length = 36) (h2 : t.data.all isHexTokenChar = true)
    (h3 : e = "mp4" ∨ e = "mov" ∨ e = "avi") {pre suf : List Char}
    (hdec : url.data = pre ++ '/' :: (t.data ++ '.' :: (e.data ++ suf))) :
    VideoOcc url t e := by
  refine ⟨⟨h1, h2⟩, h3, ⟨pre⟩, ⟨suf⟩, ?_⟩
  apply String.ext
  simp only [String.data_append, hdec]
  simp [List.append_assoc]

theorem list_of_videoOcc {url t e : String} (h : VideoOcc url t e) :
    t.data.length = 36 ∧ t.data.all isHexTokenChar = true ∧
    (e = "mp4" ∨ e = "mov" ∨ e = "avi") ∧
    ∃ pre suf : List Char, url.data = pre ++ '/' :: (t.data ++ '.' :: (e.data ++ suf)) := by
  obtain ⟨⟨h1, h2⟩, h3, preS, sufS, hdec⟩ := h
  refine ⟨h1, h2, h3, preS.data, sufS.data, ?_⟩
  rw [hdec]
  simp only [String.data_append]
  simp [List.append_assoc]

theorem jpgOcc_of_list {url t : String}
    (h1 : t.data.length = 36) (h2 : t.data.all isHexTokenChar = true)
    {pre suf : List Char}
    (hdec : url.data = pre ++ '/' :: (t.data ++ '.' :: ('j' :: 'p' :: 'g' :: suf))) :
    JpgOcc url t := by
  refine ⟨⟨h1, h2⟩, ⟨pre⟩, ⟨suf⟩, ?_⟩
  apply String.ext
  simp only [String.data_append, hdec]
  simp [List.append_assoc]

theorem list_of_jpgOcc {url t : String} (h : JpgOcc url t) :
    t.data.length = 36 ∧ t.data.all isHexTokenChar = true ∧
    ∃ pre suf : List Char, url.data = pre ++ '/' :: (t.data ++ '.' :: ('j' :: 'p' :: 'g' :: suf)) := by
  obtain ⟨⟨h1, h2⟩, preS, sufS, hdec⟩ := h
  refine ⟨h1, h2, preS.data, sufS.data, ?_⟩
  rw [hdec]
  simp only [String.data_append]
  simp [List.append_assoc]

/-- Concrete URL whose 36-char token sits immediately before `.mp4`. -/
def urlC4 : String := "/aaaaaaaa-aaaa-aaaa-aaaa-aaaaaaaaaaaa.mp4"

/-- Concrete photo URL used to instantiate the corrected filename property. -/
def urlC4w : String := "https://cdn.example.com/aaaaaaaa-bbbb-cccc-dddd-eeeeeeeeeeee.jpg?expires=1"

/-- C4 (counterexample): the claim says that for *every* URL containing a
36-character hex/hyphen token immediately before a `.jpg`/`.mp4`/`.mov`/`.avi`
suffix, `extract_filename_from_url` returns `<token>.<ext>`.  `urlC4`
contains such a token immediately before `.mp4`, yet with the photo mode
(`file_extension = 'jpg'`, the parameter's default in the source) the
function returns the timestamp fallback instead: the video regex is only
tried when `file_extension == 'mp4'`. -/
theorem claim_C4_counterexample :
    VideoOcc urlC4 "aaaaaaaa-aaaa-aaaa-aaaa-aaaaaaaaaaaa" "mp4" ∧
    extract_filename_from_url urlC4 "jpg" "20250101_000000" =
      "media_20250101_000000.jpg" ∧
    "media_20250101_000000.jpg" ≠ "aaaaaaaa-aaaa-aaaa-aaaa-aaaaaaaaaaaa.mp4" := by
  refine ⟨⟨⟨by decide, by decide⟩, Or.inl rfl, "", "", by decide⟩, by decide, by decide⟩

/-- C4 (amended): the regex branch is selected by the `file_extension`
argument, and the token must be preceded by a literal `/`.  With
`file_extension = 'mp4'` the function returns `<token>.<ext>` for some
occurrence of `/<36-char-token>.(mp4|mov|avi)` in the URL, and the
timestamp fallback when there is none; with any other `file_extension`
the same holds for `/<36-char-token>.jpg`.  The fallback depends only on
the wall-clock timestamp and the extension argument, so two calls in the
same second collide. -/
theorem claim_C4_amended (url ts : String) :
    ((∃ tok ext, VideoOcc url tok ext) →
      ∃ tok ext, VideoOcc url tok ext ∧
        extract_filename_from_url url "mp4" ts = tok ++ "." ++ ext) ∧
    ((¬ ∃ tok ext, VideoOcc url tok ext) →
      extract_filename_from_url url "mp4" ts = "media_" ++ ts ++ "." ++ "mp4") ∧
    (∀ fe, fe ≠ "mp4" →
      ((∃ tok, JpgOcc url tok) →
        ∃ tok, JpgOcc url tok ∧ extract_filename_from_url url fe ts = tok ++ ".jpg") ∧
      ((¬ ∃ tok, JpgOcc url tok) →
        extract_filename_from_url url fe ts = "media_" ++ ts ++ "." ++ fe)) := by
  refine ⟨?_, ?_, ?_⟩
  · intro _
    cases hs : searchVideo url.data with
    | some p =>
      obtain ⟨t, e⟩ := p
      obtain ⟨h1, h2, h3, pre, suf, hdec⟩ := searchVideo_sound hs
      exact ⟨t, e, videoOcc_of_list h1 h2 h3 hdec,
        by simp [extract_filename_from_url, hs]⟩
    | none =>
      rename_i hocc
      obtain ⟨t, e, hocc⟩ := hocc
      obtain ⟨h1, h2, h3, pre, suf, hdec⟩ := list_of_videoOcc hocc
      have := searchVideo_complete pre suf h1 h2 h3
      rw [← hdec, hs] at this
      simp at this
  · intro hno
    cases hs : searchVideo url.data with
    | some p =>
      obtain ⟨t, e⟩ := p
      obtain ⟨h1, h2, h3, pre, suf, hdec⟩ := searchVideo_sound hs
      exact absurd ⟨t, e, videoOcc_of_list h1 h2 h3 hdec⟩ hno
    | none => simp [extract_filename_from_url, hs]
  · intro fe hfe
    constructor
    · intro hocc
      cases hs : searchJpg url.data with
      | some t =>
        obtain ⟨h1, h2, pre, suf, hdec⟩ := searchJpg_sound hs
        exact ⟨t, jpgOcc_of_list h1 h2 hdec,
          by simp [extract_filename_from_url, hfe, hs]⟩
      | none =>
        obtain ⟨t, hocc⟩ := hocc
        obtain ⟨h1, h2, pre, suf, hdec⟩ := list_of_jpgOcc hocc
        have := searchJpg_complete pre suf h1 h2
        rw [← hdec, hs] at this
        simp at this
    · intro hno
      cases hs : searchJpg url.data with
      | some t =>
        obtain ⟨h1, h2, pre, suf, hdec⟩ := searchJpg_sound hs
        exact absurd ⟨t, jpgOcc_of_list h1 h2 hdec⟩ hno
      | none => simp [extract_filename_from_url, hfe, hs]

/-- C4 witness: the amended theorem applied to a concrete photo URL. -/
theorem claim_C4_witness :
    ∃ tok, JpgOcc urlC4w tok ∧
      extract_filename_from_url urlC4w "jpg" "20250101_000000" = tok ++ ".jpg" :=
  ((claim_C4_amended urlC4w "20250101_000000").2.2 "jpg" (by decide)).1
    ⟨"aaaaaaaa-bbbb-cccc-dddd-eeeeeeeeeeee", ⟨by decide, by decide⟩,
      "https://cdn.example.com", "?expires=1", by decide⟩

/-! ## Activity feed walker (dashboard_scraper.py, `get_dashboard_photos`) -/

/-- One child record as returned by the kids endpoint
(dashboard_scraper.py, `get_kid_ids`). -/
structure Kid where
  id : String
  name : String
  first_name : String
  last_name : String
deriving DecidableEq

/-- The `activiable` sub-record of a feed activity.  A missing or empty
(falsy) `activiable` dict is modelled as `none` at the `Activity` level;
`Option String` fields model `.get(...)` lookups whose absence is `None`. -/
structure Activiable where
  is_video : Bool
  video_file_url : Option String
  main_url : Option String
  medium_url : Option String
  thumb_url : Option String
  date : Option String
  caption : Option String
  likes_counts : Option String
deriving DecidableEq

/-- One entry of `daily_activities` in an activities page. -/
structure Activity where
  id : String
  activity_type : String
  activiable : Option Activiable
  activity_date : String
  activity_time : String
  batch_id : String
  staff_present_name : String
deriving DecidableEq

/-- One JSON page of the activities endpooint: `daily_activities` plus the
optional advertised `per_page` (`data.get('per_page', 30)`). -/
structure PageData where
  daily_activities : List Activity
  per_page : Option Nat
deriving DecidableEq

/-- The normalized media descriptor built per matching activity
(dashboard_scraper.py lines 152-168). -/
structure MediaItem where
  id : String
  url : String
  medium_url : String
  thumb_url : String
  filename : String
  folder_date : String
  date : String
  timestamp : String
  activity_type : String
  is_video : Bool
  file_extension : String
  caption : String
  likes : Option String
  batch_id : String
  staff_name : String
deriving DecidableEq

/-- The query parameters of one GET against the activities endpoint:
`kid_id`, `page` and the optionally-added date filters
(dashboard_scraper.py lines 92-101, 108). -/
structure ActivitiesRequest where
  kid_id : String
  page : Nat
  date_to : Option String
  date_from : Option String
deriving DecidableEq

/-- Result of one walk: the accumulated media list, the trace of page
requests issued, and whether the 100-page-limit warning was printed. -/
structure WalkResult where
  media : List MediaItem
  requests : List ActivitiesRequest
  warned : Bool
deriving DecidableEq

/-- dashboard_scraper.py lines 196-210 (`parse_date_for_folder`).
`nowDate` is `datetime.now().strftime('%Y-%m-%d')`; `dparse` is the
`dateutil.parser.parse`-then-`strftime` oracle (`none` = exception). -/
def parse_date_for_folder (nowDate : String) (dparse : String → Option String)
    (date_string : String) : String :=
  if date_string = "" then nowDate
  else
    match dparse date_string with
    | some d => d
    | none => nowDate

/-- dashboard_scraper.py lines 124-168: turn one activity into at most one
MediaItem.  Mirrors the `activity_type`/`activiable` guard, the video/photo
URL selection with its truthiness tests, filename extraction and folder-date
derivation. -/
def mediaFromActivity (nowDate nowTs : String) (dparse : String → Option String)
    (a : Activity) : Option MediaItem :=
  if (a.activity_type = "photo_activity" ∨ a.activity_type = "video_activity") then
    match a.activiable with
    | none => none
    | some av =>
      let is_video := av.is_video
      let sel : Option (String × String) :=
        if is_video ∧ truthyOptStr av.video_file_url then
          some (av.video_file_url.getD "", "mp4")
        else if truthyOptStr av.main_url then
          some (av.main_url.getD "", "jpg")
        else none
      match sel with
      | none => none
      | some (media_url, file_extension) =>
        let filename := extract_filename_from_url media_url file_extension nowTs
        let raw := if av.date.getD "" ≠ "" then av.date.getD "" else a.activity_date
        let folder_date := parse_date_for_folder nowDate dparse raw
        some { id := a.id, url := media_url,
               medium_url := av.medium_url.getD "", thumb_url := av.thumb_url.getD "",
               filename := filename, folder_date := folder_date,
               date := a.activity_date, timestamp := a.activity_time,
               activity_type := a.activity_type, is_video := is_video,
               file_extension := file_extension, caption := av.caption.getD "",
               likes := av.likes_counts, batch_id := a.batch_id,
               staff_name := a.staff_present_name }
  else none

/-- The `media_this_page` list built from one page's `daily_activities`. -/
def pageMedia (nowDate nowTs : String) (dparse : String → Option String)
    (das : List Activity) : List MediaItem :=
  das.filterMap (mediaFromActivity nowDate nowTs dparse)

/-- The request the walker issues for a given page number. -/
def mkActivitiesRequest (kid : String) (pTo pFrom : Option String)
    (page : Nat) : ActivitiesRequest :=
  { kid_id := kid, page := page, date_to := pTo, date_from := pFrom }

/-- The `while True` pagination loop (dashboard_scraper.py lines 106-194).
`server` is the `requests.get` oracle; `.error` is a `RequestException`
(the whole loop sits in a `try` whose handler returns `[]`).  The loop
variable `page` starts at 1; after `page += 1` the loop breaks when
`page > 100`.  `fuel` only makes the recursion structural: it is
initialized to 100, never less than `100 - page` at any call, so the
`fuel = 0` fallback (returning like the page-limit break) is unreachable;
the page-limit test always fires first. -/
def walkAux (server : ActivitiesRequest → Except Unit PageData)
    (nowDate nowTs : String) (dparse : String → Option String)
    (kid : String) (pTo pFrom : Option String) :
    Nat → Nat → List MediaItem → List ActivitiesRequest → WalkResult
  | fuel, page, acc, reqs =>
    let r := mkActivitiesRequest kid pTo pFrom page
    let reqs' := reqs ++ [r]
    match server r with
    | .error _ => { media := [], requests := reqs', warned := false }
    | .ok data =>
      let das := data.daily_activities
      if das.isEmpty then { media := acc, requests := reqs', warned := false }
      else
        let acc' := acc ++ pageMedia nowDate nowTs dparse das
        if das.length < data.per_page.getD 30 then
          { media := acc', requests := reqs', warned := false }
        else if 100 < page + 1 then
          { media := acc', requests := reqs', warned := true }
        else
          match fuel with
          | 0 => { media := acc', requests := reqs', warned := true }
          | fuel' + 1 => walkAux server nowDate nowTs dparse kid pTo pFrom
              fuel' (page + 1) acc' reqs'

/-- dashboard_scraper.py lines 33-53 (`get_kid_ids`): the kids request
either fails (a `RequestException`, logged, yielding `[]`) or returns the
parsed kid list. -/
def get_kid_ids (kidsResp : Except Unit (List Kid)) : List Kid :=
  match kidsResp with
  | .error _ => []
  | .ok ks => ks

/-- The effective `date_to` filter: `None` is first replaced by the current
date (lines 68-70), then the parameter is added only if truthy (line 98). -/
def effDateTo (nowDate : String) (date_to : Option String) : Option String :=
  optTruthy (if date_to = none then some nowDate else date_to)

/-- The effective `date_from` filter (line 100): added only if truthy. -/
def effDateFrom (date_from : Option String) : Option String :=
  optTruthy date_from

/-- dashboard_scraper.py lines 55-194 (`get_dashboard_photos`).  When
`kid_id` is `None` the first child from `get_kid_ids` is used; an empty
roster returns `[]` before any page request.  The 1-second inter-page
sleep and the per-page print statements carry no data and are not
modelled; the page-limit warning print is the `warned` flag. -/
def get_dashboard_photos (kidsResp : Except Unit (List Kid))
    (server : ActivitiesRequest → Except Unit PageData)
    (nowDate nowTs : String) (dparse : String → Option String)
    (kid_id : Option String) (date_from date_to : Option String) : WalkResult :=
  let kid? : Option String :=
    match kid_id with
    | some k => some k
    | none =>
      match get_kid_ids kidsResp with
      | [] => none
      | k :: _ => some k.id
  match kid? with
  | none => { media := [], requests := [], warned := false }
  | some kid =>
    walkAux server nowDate nowTs dparse kid
      (effDateTo nowDate date_to) (effDateFrom date_from) 100 1 [] []

/-! ### Walker lemmas -/

theorem walkAux_requests_param
    (server : ActivitiesRequest → Except Unit PageData)
    (nowDate nowTs : String) (dparse : String → Option String)
    (kid : String) (pTo pFrom : Option String) :
    ∀ (fuel page : Nat) (acc : List MediaItem) (reqs : List ActivitiesRequest),
    (∀ r ∈ reqs, r.kid_id = kid ∧ r.date_to = pTo ∧ r.date_from = pFrom) →
    ∀ r ∈ (walkAux server nowDate nowTs dparse kid pTo pFrom fuel page acc reqs).requests,
      r.kid_id = kid ∧ r.date_to = pTo ∧ r.date_from = pFrom := by
  intro fuel
  induction fuel with
  | zero =>
    intro page acc reqs hreqs
    rw [walkAux]
    cases hsrv : server (mkActivitiesRequest kid pTo pFrom page) with
    | error e =>
      simp only [hsrv]
      intro r hr
      rcases List.mem_append.mp hr with hr | hr
      · exact hreqs r hr
      · rw [List.mem_singleton.mp hr]; exact ⟨rfl, rfl, rfl⟩
    | ok data =>
      simp only [hsrv]
      split_ifs <;>
      · intro r hr
        rcases List.mem_append.mp hr with hr | hr
        · exact hreqs r hr
        · rw [List.mem_singleton.mp hr]; exact ⟨rfl, rfl, rfl⟩
  | succ fuel ih =>
    intro page acc reqs hreqs
    rw [walkAux]
    cases hsrv : server (mkActivitiesRequest kid pTo pFrom page) with
    | error e =>
      simp only [hsrv]
      intro r hr
      rcases List.mem_append.mp hr with hr | hr
      · exact hreqs r hr
      · rw [List.mem_singleton.mp hr]; exact ⟨rfl, rfl, rfl⟩
    | ok data =>
      simp only [hsrv]
      split_ifs
      case _ =>
        intro r hr
        rcases List.mem_append.mp hr with hr | hr
        · exact hreqs r hr
        · rw [List.mem_singleton.mp hr]; exact ⟨rfl, rfl, rfl⟩
      case _ =>
        intro r hr
        rcases List.mem_append.mp hr with hr | hr
        · exact hreqs r hr
        · rw [List.mem_singleton.mp hr]; exact ⟨rfl, rfl, rfl⟩
      case _ =>
        intro r hr
        rcases List.mem_append.mp hr with hr | hr
        · exact hreqs r hr
        · rw [List.mem_singleton.mp hr]; exact ⟨rfl, rfl, rfl⟩
      case _ =>
        apply ih
        intro r hr
        rcases List.mem_append.mp hr with hr | hr
        · exact hreqs r hr
        · rw [List.mem_singleton.mp hr]; exact ⟨rfl, rfl, rfl⟩

/-- C8: with both date bounds supplied (non-empty `YYYY-MM-DD` strings),
every page request of the walk carries both date-filter parameters with
exactly the supplied values — the params dict is built once before the
loop and only its `page` entry is mutated. -/
theorem claim_C8 (kidsResp : Except Unit (List Kid))
    (server : ActivitiesRequest → Except Unit PageData)
    (nowDate nowTs : String) (dparse : String → Option String)
    (kid_id : Option String) (df dt : String)
    (hdf : df ≠ "") (hdt : dt ≠ "") :
    ∀ r ∈ (get_dashboard_photos kidsResp server nowDate nowTs dparse
        kid_id (some df) (some dt)).requests,
      r.date_from = some df ∧ r.date_to = some dt := by
  have hTo : effDateTo nowDate (some dt) = some dt := by
    simp [effDateTo, optTruthy, hdt]
  have hFrom : effDateFrom (some df) = some df := by
    simp [effDateFrom, optTruthy, hdf]
  intro r hr
  simp only [get_dashboard_photos] at hr
  cases kid_id with
  | some k =>
    have h := walkAux_requests_param server nowDate nowTs dparse k
      (effDateTo nowDate (some dt)) (effDateFrom (some df)) 100 1 [] []
      (by simp) r hr
    rw [hTo] at h
    rw [hFrom] at h
    exact ⟨h.2.2, h.2.1⟩
  | none =>
    cases hks : get_kid_ids kidsResp with
    | nil => rw [hks] at hr; simp at hr
    | cons k ks =>
      rw [hks] at hr
      have h := walkAux_requests_param server nowDate nowTs dparse k.id
        (effDateTo nowDate (some dt)) (effDateFrom (some df)) 100 1 [] []
        (by simp) r hr
      rw [hTo] at h
      rw [hFrom] at h
      exact ⟨h.2.2, h.2.1⟩

/-- The single request issued in the concrete C8 witness walk. -/
def rC8 : ActivitiesRequest :=
  { kid_id := "child1", page := 1, date_to := some "2025-08-31",
    date_from := some "2025-08-01" }

/-- C8 witness: a concrete walk with `from=2025-08-01, to=2025-08-31`. -/
theorem claim_C8_witness :
    rC8.date_from = some "2025-08-01" ∧ rC8.date_to = some "2025-08-31" :=
  claim_C8 (.ok []) (fun _ => .error ()) "2025-10-12" "x" (fun _ => none)
    (some "child1") "2025-08-01" "2025-08-31" (by decide) (by decide)
    rC8 (by decide)

/-- C9: when `date_to` is `None`, the walker substitutes the current date
(lines 68-70), so every page request of such a walk carries that date as
its `date_to` parameter; it is never absent (while `date_from` may be). -/
theorem claim_C9 (kidsResp : Except Unit (List Kid))
    (server : ActivitiesRequest → Except Unit PageData)
    (nowTs : String) (dparse : String → Option String)
    (kid_id : Option String) (df : Option String) (nowDate : String)
    (hnow : nowDate ≠ "") :
    effDateTo nowDate none = some nowDate ∧
    ∀ r ∈ (get_dashboard_photos kidsResp server nowDate nowTs dparse
        kid_id df none).requests,
      r.date_to = some nowDate := by
  have hTo : effDateTo nowDate none = some nowDate := by
    simp [effDateTo, optTruthy, hnow]
  refine ⟨hTo, ?_⟩
  intro r hr
  simp only [get_dashboard_photos] at hr
  cases kid_id with
  | some k =>
    have h := walkAux_requests_param server nowDate nowTs dparse k
      (effDateTo nowDate none) (effDateFrom df) 100 1 [] [] (by simp) r hr
    rw [hTo] at h
    exact h.2.1
  | none =>
    cases hks : get_kid_ids kidsResp with
    | nil => rw [hks] at hr; simp at hr
    | cons k ks =>
      rw [hks] at hr
      have h := walkAux_requests_param server nowDate nowTs dparse k.id
        (effDateTo nowDate none) (effDateFrom df) 100 1 [] [] (by simp) r hr
      rw [hTo] at h
      exact h.2.1

/-- The single request issued in the concrete C9 witness walk. -/
def rC9 : ActivitiesRequest :=
  { kid_id := "child1", page := 1, date_to := some "2025-10-12",
    date_from := none }

/-- C9 witness: a concrete walk with `date_to = None`. -/
theorem claim_C9_witness :
    effDateTo "2025-10-12" none = some "2025-10-12" ∧
    rC9.date_to = some "2025-10-12" := by
  have h := claim_C9 (.ok []) (fun _ => .error ()) "x" (fun _ => none)
    (some "child1") none "2025-10-12" (by decide)
  exact ⟨h.1, h.2 rC9 (by decide)⟩

theorem walkAux_error_empty
    (server : ActivitiesRequest → Except Unit PageData)
    (nowDate nowTs : String) (dparse : String → Option String)
    (kid : String) (pTo pFrom : Option String) :
    ∀ (fuel page : Nat) (acc : List MediaItem) (reqs : List ActivitiesRequest),
    (∀ r ∈ reqs, server r ≠ .error ()) →
    (∃ r ∈ (walkAux server nowDate nowTs dparse kid pTo pFrom fuel page acc reqs).requests,
       server r = .error ()) →
    (walkAux server nowDate nowTs dparse kid pTo pFrom fuel page acc reqs).media = [] := by
  intro fuel
  induction fuel with
  | zero =>
    intro page acc reqs hreqs hex
    rw [walkAux] at hex ⊢
    cases hsrv : server (mkActivitiesRequest kid pTo pFrom page) with
    | error e => simp [hsrv]
    | ok data =>
      rw [hsrv] at hex
      exfalso
      simp only at hex
      split_ifs at hex with h1 h2 h3 <;>
      · obtain ⟨r, hr, herr⟩ := hex
        rcases List.mem_append.mp hr with hr | hr
        · exact hreqs r hr herr
        · rw [List.mem_singleton.mp hr] at herr
          rw [hsrv] at herr
          exact absurd herr (by simp)
  | succ fuel ih =>
    intro page acc reqs hreqs hex
    rw [walkAux] at hex ⊢
    cases hsrv : server (mkActivitiesRequest kid pTo pFrom page) with
    | error e => simp [hsrv]
    | ok data =>
      rw [hsrv] at hex
      simp only at hex ⊢
      split_ifs at hex ⊢ with h1 h2 h3
      case _ =>
        exfalso
        obtain ⟨r, hr, herr⟩ := hex
        rcases List.mem_append.mp hr with hr | hr
        · exact hreqs r hr herr
        · rw [List.mem_singleton.mp hr] at herr
          rw [hsrv] at herr
          exact absurd herr (by simp)
      case _ =>
        exfalso
        obtain ⟨r, hr, herr⟩ := hex
        rcases List.mem_append.mp hr with hr | hr
        · exact hreqs r hr herr
        · rw [List.mem_singleton.mp hr] at herr
          rw [hsrv] at herr
          exact absurd herr (by simp)
      case _ =>
        exfalso
        obtain ⟨r, hr, herr⟩ := hex
        rcases List.mem_append.mp hr with hr | hr
        · exact hreqs r hr herr
        · rw [List.mem_singleton.mp hr] at herr
          rw [hsrv] at herr
          exact absurd herr (by simp)
      case _ =>
        apply ih _ _ _ _ hex
        intro r hr
        rcases List.mem_append.mp hr with hr | hr
        · exact hreqs r hr
        · rw [List.mem_singleton.mp hr, hsrv]
          simp

/-- Activiable of the single photo activity used in the C1 counterexample. -/
def avC1 : Activiable :=
  { is_video := false, video_file_url := none, main_url := some "https://m/x.jpg",
    medium_url := none, thumb_url := none, date := none, caption := none,
    likes_counts := none }

/-- The single photo activity used in the C1 counterexample. -/
def actC1 : Activity :=
  { id := "a1", activity_type := "photo_activity", activiable := some avC1,
    activity_date := "2025-08-01", activity_time := "09:00", batch_id := "",
    staff_present_name := "" }

/-- Page 1 of the C1 counterexample: one item, advertised page size 1, so the
walker proceeds to page 2. -/
def pageC1 : PageData := { daily_activities := [actC1], per_page := some 1 }

/-- C1 counterexample server: page 1 succeeds, page 2 raises. -/
def serverC1 : ActivitiesRequest → Except Unit PageData :=
  fun r => if r.page = 1 then .ok pageC1 else .error ()

/-- The page-1 request of the C1 counterexample walk. -/
def reqC1page1 : ActivitiesRequest :=
  { kid_id := "k", page := 1, date_to := some "2025-10-12", date_from := none }

/-- The page-2 request of the C1 counterexample walk. -/
def reqC1page2 : ActivitiesRequest :=
  { kid_id := "k", page := 2, date_to := some "2025-10-12", date_from := none }

/-- C1 (counterexample): the claim says a network failure mid-walk returns
the items accumulated from earlier pages.  Here page 1 succeeds and yields
one MediaItem, page 2 raises — yet the function returns `[]`: the
`except RequestException` handler at dashboard_scraper.py line 194 executes
`return []`, not `return all_photos`, discarding the accumulated items. -/
theorem claim_C1_counterexample :
    (get_dashboard_photos (.ok []) serverC1 "2025-10-12" "20250101_000000"
      (fun _ => none) (some "k") none none).media = [] ∧
    serverC1 reqC1page1 = .ok pageC1 ∧
    serverC1 reqC1page2 = .error () ∧
    pageMedia "2025-10-12" "20250101_000000" (fun _ => none)
      pageC1.daily_activities ≠ [] := by
  refine ⟨rfl, rfl, rfl, by decide⟩

/-- C1 (amended): when any page request of the walk fails with a network
error, `get_dashboard_photos` catches the exception and returns normally —
but it returns the *empty* list, discarding everything accumulated before
the failure, rather than the partial results the spec describes. -/
theorem claim_C1_amended (kidsResp : Except Unit (List Kid))
    (server : ActivitiesRequest → Except Unit PageData)
    (nowDate nowTs : String) (dparse : String → Option String)
    (kid_id : Option String) (date_from date_to : Option String)
    (hfail : ∃ r ∈ (get_dashboard_photos kidsResp server nowDate nowTs dparse
        kid_id date_from date_to).requests, server r = .error ()) :
    (get_dashboard_photos kidsResp server nowDate nowTs dparse
        kid_id date_from date_to).media = [] := by
  simp only [get_dashboard_photos] at hfail ⊢
  cases kid_id with
  | some k =>
    exact walkAux_error_empty server nowDate nowTs dparse k
      (effDateTo nowDate date_to) (effDateFrom date_from) 100 1 [] []
      (by simp) hfail
  | none =>
    cases hks : get_kid_ids kidsResp with
    | nil => rfl
    | cons kd ks =>
      rw [hks] at hfail
      exact walkAux_error_empty server nowDate nowTs dparse kd.id
        (effDateTo nowDate date_to) (effDateFrom date_from) 100 1 [] []
        (by simp) hfail

/-- C1 witness: the amended theorem at a server that fails on page 1. -/
theorem claim_C1_witness :
    (get_dashboard_photos (.ok []) (fun _ => .error ()) "2025-10-12" "x"
      (fun _ => none) (some "k") none none).media = [] :=
  claim_C1_amended (.ok []) (fun _ => .error ()) "2025-10-12" "x"
    (fun _ => none) (some "k") none none
    ⟨reqC1page1, by decide, rfl⟩

/-- A page that does not end the walk: non-empty activities and at least as
many entries as the advertised page size. -/
def pageNonShort (d : PageData) : Prop :=
  d.daily_activities ≠ [] ∧ d.per_page.getD 30 ≤ d.daily_activities.length

/-- A short page (fewer entries than the advertised page size). -/
def pageShort (d : PageData) : Prop :=
  d.daily_activities.length < d.per_page.getD 30

theorem walkAux_short_run
    (server : ActivitiesRequest → Except Unit PageData)
    (nowDate nowTs : String) (dparse : String → Option String)
    (kid : String) (pTo pFrom : Option String) :
    ∀ (qs : List PageData) (hne : qs ≠ []) (p fuel : Nat)
      (acc : List MediaItem) (reqs : List ActivitiesRequest),
    p + qs.length ≤ 101 → qs.length ≤ fuel + 1 →
    (∀ i (h : i < qs.length),
      server (mkActivitiesRequest kid pTo pFrom (p + i)) = .ok (qs.get ⟨i, h⟩)) →
    (∀ i (h : i + 1 < qs.length),
      pageNonShort (qs.get ⟨i, Nat.lt_of_succ_lt h⟩)) →
    pageShort (qs.getLast hne) →
    walkAux server nowDate nowTs dparse kid pTo pFrom fuel p acc reqs =
      { media := acc ++
          (qs.map (fun q => pageMedia nowDate nowTs dparse q.daily_activities)).flatten,
        requests := reqs ++
          (List.range' p qs.length).map (mkActivitiesRequest kid pTo pFrom),
        warned := false } := by
  intro qs
  induction qs with
  | nil => intro hne; exact absurd rfl hne
  | cons q rest ih =>
    intro hne p fuel acc reqs hbound hfuel hserver hnonshort hshort
    have hq : server (mkActivitiesRequest kid pTo pFrom p) = .ok q := by
      have h0 := hserver 0 (by simp)
      simpa using h0
    rw [walkAux, hq]
    simp only
    cases rest with
    | nil =>
      have hshort' : q.daily_activities.length < q.per_page.getD 30 := hshort
      by_cases hdas : q.daily_activities = []
      · rw [if_pos (by simp [hdas])]
        simp [pageMedia, hdas, List.range'_succ]
      · rw [if_neg (by simp [hdas])]
        rw [if_pos hshort']
        simp [List.range'_succ]
    | cons q2 rest2 =>
      have hq0 : pageNonShort q := by
        have h0 := hnonshort 0 (by simp)
        simpa using h0
      rw [if_neg (by simp [hq0.1])]
      rw [if_neg (not_lt_of_le hq0.2)]
      have hplim : ¬ (100 < p + 1) := by
        simp only [List.length_cons] at hbound
        omega
      rw [if_neg hplim]
      cases fuel with
      | zero =>
        exfalso
        simp only [List.length_cons] at hfuel
        omega
      | succ fuel' =>
        have hserver' : ∀ i (h : i < (q2 :: rest2).length),
            server (mkActivitiesRequest kid pTo pFrom (p + 1 + i)) =
              .ok ((q2 :: rest2).get ⟨i, h⟩) := by
          intro i h
          have h' : i + 1 < (q :: q2 :: rest2).length := by
            simp only [List.length_cons] at h ⊢
            omega
          have hs := hserver (i + 1) h'
          have harith : p + (i + 1) = p + 1 + i := by omega
          rw [harith] at hs
          simpa using hs
        have hnonshort' : ∀ i (h : i + 1 < (q2 :: rest2).length),
            pageNonShort ((q2 :: rest2).get ⟨i, Nat.lt_of_succ_lt h⟩) := by
          intro i h
          have h' : (i + 1) + 1 < (q :: q2 :: rest2).length := by
            simp only [List.length_cons] at h ⊢
            omega
          have hn := hnonshort (i + 1) h'
          simpa using hn
        have hshort2 : pageShort ((q2 :: rest2).getLast (by simp)) := by
          have hs := hshort
          rwa [List.getLast_cons (by simp)] at hs
        have hfuel' : (q2 :: rest2).length ≤ fuel' + 1 := by
          simp only [List.length_cons] at hfuel ⊢
          omega
        have hbound' : (p + 1) + (q2 :: rest2).length ≤ 101 := by
          simp only [List.length_cons] at hbound ⊢
          omega
        show walkAux server nowDate nowTs dparse kid pTo pFrom fuel' (p + 1)
            (acc ++ pageMedia nowDate nowTs dparse q.daily_activities)
            (reqs ++ [mkActivitiesRequest kid pTo pFrom p]) = _
        rw [ih (by simp) (p + 1) fuel' _ _ hbound' hfuel' hserver' hnonshort' hshort2]
        simp [List.range'_succ, List.append_assoc]

/-- C5: if the server serves pages 1..n (n ≤ 100, n ≥ 1) where pages
1..n-1 are non-short and non-empty and page n is short (fewer entries
than its advertised page size), the walker requests exactly pages 1..n
and returns the per-page media lists concatenated in order. -/
theorem claim_C5 (kidsResp : Except Unit (List Kid))
    (server : ActivitiesRequest → Except Unit PageData)
    (nowDate nowTs : String) (dparse : String → Option String)
    (k : String) (df dt : Option String) (qs : List PageData)
    (hne : qs ≠ []) (hlen : qs.length ≤ 100)
    (hserver : ∀ i (h : i < qs.length),
      server (mkActivitiesRequest k (effDateTo nowDate dt) (effDateFrom df) (1 + i)) =
        .ok (qs.get ⟨i, h⟩))
    (hfull : ∀ i (h : i + 1 < qs.length),
      pageNonShort (qs.get ⟨i, Nat.lt_of_succ_lt h⟩))
    (hshort : pageShort (qs.getLast hne)) :
    get_dashboard_photos kidsResp server nowDate nowTs dparse (some k) df dt =
      { media := (qs.map
          (fun q => pageMedia nowDate nowTs dparse q.daily_activities)).flatten,
        requests := (List.range' 1 qs.length).map
          (mkActivitiesRequest k (effDateTo nowDate dt) (effDateFrom df)),
        warned := false } := by
  show walkAux server nowDate nowTs dparse k
    (effDateTo nowDate dt) (effDateFrom df) 100 1 [] [] = _
  rw [walkAux_short_run server nowDate nowTs dparse k
    (effDateTo nowDate dt) (effDateFrom df) qs hne 1 100 [] []
    (by omega) (by omega) hserver hfull hshort]
  simp

/-- The short page ending the C5 witness walk. -/
def pageC5short : PageData := { daily_activities := [], per_page := none }

/-- C5 witness server: page 1 full (page size 1), page 2 empty/short. -/
def serverC5 : ActivitiesRequest → Except Unit PageData :=
  fun r => if r.page = 1 then .ok pageC1 else .ok pageC5short

/-- C5 witness: a concrete two-page walk ending on a short page. -/
theorem claim_C5_witness :
    get_dashboard_photos (.ok []) serverC5 "2025-10-12" "20250101_000000"
      (fun _ => none) (some "k") none none =
      { media := ([pageC1, pageC5short].map (fun q =>
          pageMedia "2025-10-12" "20250101_000000" (fun _ => none)
            q.daily_activities)).flatten,
        requests := (List.range' 1 2).map (mkActivitiesRequest "k"
          (effDateTo "2025-10-12" none) (effDateFrom none)),
        warned := false } := by
  have h := claim_C5 (.ok []) serverC5 "2025-10-12" "20250101_000000"
    (fun _ => none) "k" none none [pageC1, pageC5short]
    (by simp) (by simp)
    (by
      intro i h
      match i with
      | 0 => rfl
      | 1 => rfl
      | n + 2 => exact absurd h (by simp))
    (by
      intro i h
      match i with
      | 0 => exact show pageNonShort pageC1 from ⟨by decide, by decide⟩
      | n + 1 => exact absurd h (by simp))
    (show pageShort pageC5short by simp [pageShort, pageC5short])
  simpa using h

theorem walkAux_full_run
    (server : ActivitiesRequest → Except Unit PageData)
    (nowDate nowTs : String) (dparse : String → Option String)
    (kid : String) (pTo pFrom : Option String) (pg : Nat → PageData) :
    ∀ (fuel p : Nat) (acc : List MediaItem) (reqs : List ActivitiesRequest),
    1 ≤ p → p ≤ 100 → 100 ≤ p + fuel →
    (∀ i, p ≤ i → i ≤ 100 →
      server (mkActivitiesRequest kid pTo pFrom i) = .ok (pg i) ∧
        pageNonShort (pg i)) →
    walkAux server nowDate nowTs dparse kid pTo pFrom fuel p acc reqs =
      { media := acc ++ ((List.range' p (101 - p)).map
          (fun i => pageMedia nowDate nowTs dparse (pg i).daily_activities)).flatten,
        requests := reqs ++
          (List.range' p (101 - p)).map (mkActivitiesRequest kid pTo pFrom),
        warned := true } := by
  intro fuel
  induction fuel with
  | zero =>
    intro p acc reqs hp1 hp100 hpf hserver
    have hp : p = 100 := by omega
    subst hp
    obtain ⟨hsrv, hns⟩ := hserver 100 (by omega) (by omega)
    rw [walkAux, hsrv]
    simp only
    rw [if_neg (by simp [hns.1])]
    rw [if_neg (not_lt_of_le hns.2)]
    rw [if_pos (by omega : 100 < 100 + 1)]
    norm_num
  | succ fuel' ih =>
    intro p acc reqs hp1 hp100 hpf hserver
    obtain ⟨hsrv, hns⟩ := hserver p (le_refl p) hp100
    rw [walkAux, hsrv]
    simp only
    rw [if_neg (by simp [hns.1])]
    rw [if_neg (not_lt_of_le hns.2)]
    by_cases hp : p = 100
    · subst hp
      rw [if_pos (by omega : 100 < 100 + 1)]
      norm_num
    · rw [if_neg (by omega : ¬ 100 < p + 1)]
      show walkAux server nowDate nowTs dparse kid pTo pFrom fuel' (p + 1)
          (acc ++ pageMedia nowDate nowTs dparse (pg p).daily_activities)
          (reqs ++ [mkActivitiesRequest kid pTo pFrom p]) = _
      rw [ih (p + 1) _ _ (by omega) (by omega) (by omega)
        (fun i hi1 hi2 => hserver i (by omega) hi2)]
      have hsplit : List.range' p (101 - p) =
          p :: List.range' (p + 1) (101 - (p + 1)) := by
        have h1 : 101 - p = (101 - (p + 1)) + 1 := by omega
        rw [h1, List.range'_succ]
      rw [hsplit]
      simp [List.append_assoc]

/-- C6: if the server answers every page 1..100 with a full-sized, non-empty
page (entry count equal to the advertised positive page size), the walker
requests exactly pages 1..100, prints the page-limit warning, and returns
normally (not via the error path) with all 100 pages' media concatenated. -/
theorem claim_C6 (kidsResp : Except Unit (List Kid))
    (server : ActivitiesRequest → Except Unit PageData)
    (nowDate nowTs : String) (dparse : String → Option String)
    (k : String) (df dt : Option String) (pg : Nat → PageData)
    (hserver : ∀ i, 1 ≤ i → i ≤ 100 →
      server (mkActivitiesRequest k (effDateTo nowDate dt) (effDateFrom df) i) =
        .ok (pg i) ∧
      (pg i).daily_activities ≠ [] ∧
      (pg i).daily_activities.length = (pg i).per_page.getD 30) :
    get_dashboard_photos kidsResp server nowDate nowTs dparse (some k) df dt =
      { media := ((List.range' 1 100).map
          (fun i => pageMedia nowDate nowTs dparse (pg i).daily_activities)).flatten,
        requests := (List.range' 1 100).map
          (mkActivitiesRequest k (effDateTo nowDate dt) (effDateFrom df)),
        warned := true } := by
  show walkAux server nowDate nowTs dparse k
    (effDateTo nowDate dt) (effDateFrom df) 100 1 [] [] = _
  rw [walkAux_full_run server nowDate nowTs dparse k
    (effDateTo nowDate dt) (effDateFrom df) pg 100 1 [] []
    (by omega) (by omega) (by omega)
    (fun i h1 h2 => ⟨(hserver i h1 h2).1,
      (hserver i h1 h2).2.1, (hserver i h1 h2).2.2.ge⟩)]
  norm_num

/-- C6 witness: a server that always returns the same full page of size 1. -/
theorem claim_C6_witness :
    get_dashboard_photos (.ok []) (fun _ => .ok pageC1) "2025-10-12"
      "20250101_000000" (fun _ => none) (some "k") none none =
      { media := ((List.range' 1 100).map
          (fun _ => pageMedia "2025-10-12" "20250101_000000" (fun _ => none)
            pageC1.daily_activities)).flatten,
        requests := (List.range' 1 100).map (mkActivitiesRequest "k"
          (effDateTo "2025-10-12" none) (effDateFrom none)),
        warned := true } :=
  claim_C6 (.ok []) (fun _ => .ok pageC1) "2025-10-12" "20250101_000000"
    (fun _ => none) "k" none none (fun _ => pageC1)
    (fun i h1 h2 => ⟨rfl, show pageC1.daily_activities ≠ [] by decide,
      show pageC1.daily_activities.length = pageC1.per_page.getD 30 by decide⟩)

/-! ## Download batch loop (dashboard_scraper.py, `download_all_media`) -/

/-- Observable events of the download loop: the rate-limit pause (with its
duration in seconds) and each download attempt (1-based position and
outcome). -/
inductive DlEvent where
  | pause (seconds : Nat)
  | attempt (i : Nat) (ok : Bool)
deriving DecidableEq

/-- The aggregate counts returned by `download_all_media`. -/
structure Summary where
  success : Nat
  failed : Nat
  total : Nat
  photos : Nat
  videos : Nat
deriving DecidableEq

/-- The `for i, media_item in enumerate(media_items, 1)` loop
(dashboard_scraper.py lines 319-332).  `dl i` is the outcome of
`download_media` for the i-th attempt (its own network and filesystem
effects are the oracle).  Before attempting item `i`, if `i > 1` and
`(i - 1) % 100 == 0`, a 2-minute (120 s) pause is inserted. -/
def downloadBatch (dl : Nat → Bool) :
    List MediaItem → Nat → Nat × Nat × List DlEvent
  | [], _ => (0, 0, [])
  | _ :: rest, i =>
    let pre : List DlEvent :=
      if 1 < i ∧ (i - 1) % 100 = 0 then [DlEvent.pause 120] else []
    let ok := dl i
    let res := downloadBatch dl rest (i + 1)
    ((if ok then res.1 + 1 else res.1),
     (if ok then res.2.1 else res.2.1 + 1),
     pre ++ DlEvent.attempt i ok :: res.2.2)

/-- dashboard_scraper.py lines 283-348 (`download_all_media`): fetch the
feed, return zeroed counts if it is empty, otherwise run the download
loop and report the tallies.  The count-by-type loop of lines 307-311 is
the filter length. -/
def download_all_media (kidsResp : Except Unit (List Kid))
    (server : ActivitiesRequest → Except Unit PageData)
    (nowDate nowTs : String) (dparse : String → Option String)
    (dl : Nat → Bool) (date_from date_to : Option String) :
    Summary × List DlEvent :=
  let media_items := (get_dashboard_photos kidsResp server nowDate nowTs dparse
    none date_from date_to).media
  if media_items.isEmpty then
    ({ success := 0, failed := 0, total := 0, photos := 0, videos := 0 }, [])
  else
    let res := downloadBatch dl media_items 1
    ({ success := res.1, failed := res.2.1, total := media_items.length,
       photos := (media_items.filter (fun m => ¬ m.is_video)).length,
       videos := (media_items.filter (fun m => m.is_video)).length },
     res.2.2)

theorem downloadBatch_events (dl : Nat → Bool) :
    ∀ (items : List MediaItem) (start : Nat),
    (downloadBatch dl items start).2.2 =
      (List.range' start items.length).flatMap (fun i =>
        (if 1 < i ∧ (i - 1) % 100 = 0 then [DlEvent.pause 120] else []) ++
        [DlEvent.attempt i (dl i)]) := by
  intro items
  induction items with
  | nil => intro start; simp [downloadBatch]
  | cons m rest ih =>
    intro start
    rw [downloadBatch]
    simp only [List.length_cons, List.range'_succ, List.flatMap_cons]
    rw [ih (start + 1)]
    simp

/-- A placeholder MediaItem used to exercise the batch loop on 250 items. -/
def mediaStub : MediaItem :=
  { id := "m", url := "u", medium_url := "", thumb_url := "", filename := "f",
    folder_date := "2025-01-01", date := "", timestamp := "",
    activity_type := "photo_activity", is_video := false,
    file_extension := "jpg", caption := "", likes := none, batch_id := "",
    staff_name := "" }

set_option maxRecDepth 100000 in
/-- C7: the event trace of the download loop is exactly the attempts in
order, with a 120-second pause inserted immediately before attempt `i`
precisely when `i > 1` and `100 ∣ (i - 1)` — i.e. exactly after every
100th completed attempt (success or failure alike: the pause condition
ignores the outcome) whenever a next item exists, and after no other
count.  In particular a 250-item batch pauses exactly twice (after the
100th and the 200th attempt). -/
theorem claim_C7 (dl : Nat → Bool) (items : List MediaItem) :
    (downloadBatch dl items 1).2.2 =
      (List.range' 1 items.length).flatMap (fun i =>
        (if 1 < i ∧ 100 ∣ (i - 1) then [DlEvent.pause 120] else []) ++
        [DlEvent.attempt i (dl i)]) ∧
    ((downloadBatch (fun _ => true) (List.replicate 250 mediaStub) 1).2.2.count
      (DlEvent.pause 120) = 2) ∧
    ((downloadBatch (fun _ => true) (List.replicate 250 mediaStub) 1).2.2.take 101 =
      (List.range' 1 100).map (fun i => DlEvent.attempt i true) ++ [DlEvent.pause 120]) := by
  refine ⟨?_, by decide, by decide⟩
  rw [downloadBatch_events]
  simp only [Nat.dvd_iff_mod_eq_zero]

/-! ## Login (login.py) and orchestrator (main.py) -/

/-- One site descriptor of the login response. -/
structure Site where
  name : String
  base_url : String
deriving DecidableEq

/-- The parsed login response bundle (auth_session.json shape). -/
structure AuthData where
  auth_token : String
  user_id : String
  sites : List Site
deriving DecidableEq

/-- The final HTTP response of the login POST: status code, text body, and
the result of `response.json()` parsed into `AuthData` (`none` = the body
is not a valid auth JSON document). -/
structure HttpResponse where
  status : Nat
  body : String
  jsonAuth : Option AuthData
deriving DecidableEq

/-- login.py lines 17-61 (`login_to_procare`).  The argument is the outcome
of `requests.post`: `none` = connection-level `RequestException` (no
response object).  `response.raise_for_status()` raises `HTTPError` exactly
for status codes 400-599 (the requests library's documented behavior); the
`except` block then prints the failure, and — since `HTTPError` carries the
response — the status and body, and returns `None`.  A JSON decode failure
(`requests.exceptions.JSONDecodeError`, also a `RequestException` without
an attached response here) likewise returns `None`.  On success the parsed
bundle is returned (the success-path prints of token/user/site are
represented by the single marker line). -/
def login_to_procare (resp : Option HttpResponse) :
    Option AuthData × List String :=
  match resp with
  | none => (none, ["Login failed"])
  | some r =>
    if 400 ≤ r.status ∧ r.status < 600 then
      (none, ["Login failed",
              "Response status: " ++ toString r.status,
              "Response body: " ++ r.body])
    else
      match r.jsonAuth with
      | none => (none, ["Login failed"])
      | some a => (some a, ["Login successful!"])

/-- Milestones of one `main()` run (main.py lines 9-100). -/
inductive RunEvent where
  | loginCall
  | downloadPhase
  | summaryPrint
deriving DecidableEq

/-- All external inputs of one `main()` run. -/
structure CliEnv where
  date_from : Option String
  date_to : Option String
  strptimeOk : String → Bool
  credsPresent : Bool
  loginResp : Option HttpResponse
  kidsResp : Except Unit (List Kid)
  server : ActivitiesRequest → Except Unit PageData
  nowDate : String
  nowTs : String
  dparse : String → Option String
  dl : Nat → Bool

/-- Result of one `main()` run: the Python return value (`None` for the
bare `return` statements), the milestone trace, and the summary dict when
one was produced. -/
structure MainRun where
  retval : Option Nat
  events : List RunEvent
  summary : Option Summary

/-- main.py lines 9-100 (`main`).  Date arguments are validated only when
truthy (`if args.date_from:`); `strptimeOk` is the
`datetime.strptime(_, '%Y-%m-%d')` oracle.  `credsPresent` is
`all(creds.values())`.  A failed login (`login_to_procare` returning
`None`) aborts with a bare `return`; login is invoked exactly once per
run (no retry).  The `--dir` argument only names the output directory and
carries no control flow. -/
def pymain (env : CliEnv) : MainRun :=
  if truthyOptStr env.date_from = true ∧
      env.strptimeOk (env.date_from.getD "") = false then
    { retval := some 1, events := [], summary := none }
  else if truthyOptStr env.date_to = true ∧
      env.strptimeOk (env.date_to.getD "") = false then
    { retval := some 1, events := [], summary := none }
  else if ¬ env.credsPresent then
    { retval := none, events := [], summary := none }
  else
    match (login_to_procare env.loginResp).1 with
    | none => { retval := none, events := [RunEvent.loginCall], summary := none }
    | some _ =>
      let res := download_all_media env.kidsResp env.server env.nowDate
        env.nowTs env.dparse env.dl env.date_from env.date_to
      { retval := some 0,
        events := [RunEvent.loginCall, RunEvent.downloadPhase,
                   RunEvent.summaryPrint],
        summary := some res.1 }

/-- `exit(main())`: Python maps a `None` return value to exit status 0 and
an integer return value to itself (main.py line 103). -/
def exitCode (m : MainRun) : Nat := m.retval.getD 0

/-- A syntactically valid auth bundle. -/
def authOk : AuthData :=
  { auth_token := "tok", user_id := "u1",
    sites := [{ name := "school", base_url := "https://api.example.com" }] }

/-- A non-2xx (redirect-class) login response carrying a parseable body. -/
def respC2redirect : HttpResponse :=
  { status := 300, body := "multiple choices", jsonAuth := some authOk }

/-- C2 (counterexample): the claim says *every* non-2xx login response
fails.  But `raise_for_status` only raises for 4xx/5xx, so a final
response with status 300 (non-2xx) whose body parses is treated as a
successful login. -/
theorem claim_C2_counterexample :
    respC2redirect.status = 300 ∧
    ¬ (200 ≤ respC2redirect.status ∧ respC2redirect.status < 300) ∧
    (login_to_procare (some respC2redirect)).1 = some authOk := by
  refine ⟨rfl, by decide, rfl⟩

/-- C2 (amended): for every login response with a 4xx or 5xx status, the
login fails — the `HTTPError` raised for the status is caught, the HTTP
status and response body are reported, `None` is returned — and `main`
aborts the run without retrying (login invoked at most once, the download
phase and summary never reached).  Non-2xx statuses outside 400-599 are
not treated as failures. -/
theorem claim_C2_amended (env : CliEnv) (r : HttpResponse)
    (henv : env.loginResp = some r) (h4 : 400 ≤ r.status) (h6 : r.status < 600) :
    (login_to_procare (some r)).1 = none ∧
    ("Response status: " ++ toString r.status) ∈ (login_to_procare (some r)).2 ∧
    ("Response body: " ++ r.body) ∈ (login_to_procare (some r)).2 ∧
    (pymain env).events.count RunEvent.loginCall ≤ 1 ∧
    RunEvent.downloadPhase ∉ (pymain env).events ∧
    RunEvent.summaryPrint ∉ (pymain env).events := by
  have hcond : 400 ≤ r.status ∧ r.status < 600 := ⟨h4, h6⟩
  have hfail : (login_to_procare (some r)).1 = none := by
    simp [login_to_procare, if_pos hcond]
  have hev : (pymain env).events = [] ∨
      (pymain env).events = [RunEvent.loginCall] := by
    unfold pymain
    split_ifs with h1 h2 h3
    · left; rfl
    · left; rfl
    · rw [henv, hfail]
      right; rfl
    · left; rfl
  refine ⟨hfail, ?_, ?_, ?_, ?_, ?_⟩
  · simp [login_to_procare, if_pos hcond]
  · simp [login_to_procare, if_pos hcond]
  · rcases hev with hev | hev <;> simp [hev]
  · rcases hev with hev | hev <;> simp [hev]
  · rcases hev with hev | hev <;> simp [hev]

/-- A 401 login response. -/
def respC2unauthorized : HttpResponse :=
  { status := 401, body := "unauthorized", jsonAuth := none }

/-- A run environment whose login returns 401. -/
def envC2 : CliEnv :=
  { date_from := none, date_to := none, strptimeOk := fun _ => true,
    credsPresent := true, loginResp := some respC2unauthorized,
    kidsResp := .ok [], server := fun _ => .error (),
    nowDate := "2025-10-12", nowTs := "x", dparse := fun _ => none,
    dl := fun _ => true }

/-- C2 witness: the amended theorem at a concrete 401 response. -/
theorem claim_C2_witness :
    (login_to_procare (some respC2unauthorized)).1 = none ∧
    ("Response status: " ++ toString respC2unauthorized.status) ∈
      (login_to_procare (some respC2unauthorized)).2 ∧
    ("Response body: " ++ respC2unauthorized.body) ∈
      (login_to_procare (some respC2unauthorized)).2 ∧
    (pymain envC2).events.count RunEvent.loginCall ≤ 1 ∧
    RunEvent.downloadPhase ∉ (pymain envC2).events ∧
    RunEvent.summaryPrint ∉ (pymain envC2).events :=
  claim_C2_amended envC2 respC2unauthorized rfl (by decide) (by decide)

/-- A run environment with valid arguments but missing credentials. -/
def envC3creds : CliEnv :=
  { date_from := none, date_to := none, strptimeOk := fun _ => true,
    credsPresent := false, loginResp := none, kidsResp := .ok [],
    server := fun _ => .error (), nowDate := "2025-10-12", nowTs := "x",
    dparse := fun _ => none, dl := fun _ => true }

/-- C3 (counterexample): the claim says the exit code is 0 *exactly when*
the summary print is reached.  With missing credentials `main` executes a
bare `return`, so `exit(main())` becomes `exit(None)` = exit status 0 —
yet the summary is never printed. -/
theorem claim_C3_counterexample :
    exitCode (pymain envC3creds) = 0 ∧
    RunEvent.summaryPrint ∉ (pymain envC3creds).events := by
  refine ⟨rfl, by decide⟩

/-- C3 (amended): the exit code is non-zero exactly when a supplied
(truthy) `--from` or `--to` argument fails `YYYY-MM-DD` validation — no
other failure (missing credentials, failed login, failed downloads)
produces a non-zero code.  Reaching the summary implies exit code 0, but
the converse fails: missing credentials and failed logins also exit 0
without reaching the summary. -/
theorem claim_C3_amended (env : CliEnv) :
    (exitCode (pymain env) ≠ 0 ↔
      (truthyOptStr env.date_from = true ∧
        env.strptimeOk (env.date_from.getD "") = false) ∨
      (truthyOptStr env.date_to = true ∧
        env.strptimeOk (env.date_to.getD "") = false)) ∧
    (RunEvent.summaryPrint ∈ (pymain env).events → exitCode (pymain env) = 0) := by
  constructor
  · unfold pymain exitCode
    split_ifs with h1 h2 h3
    · exact iff_of_true (by simp) (Or.inl h1)
    · exact iff_of_true (by simp) (Or.inr h2)
    · cases hl : (login_to_procare env.loginResp).1 with
      | none => exact iff_of_false (by simp) (not_or.mpr ⟨h1, h2⟩)
      | some a => exact iff_of_false (by simp) (not_or.mpr ⟨h1, h2⟩)
    · exact iff_of_false (by simp) (not_or.mpr ⟨h1, h2⟩)
  · intro hmem
    unfold pymain at hmem ⊢
    unfold exitCode
    split_ifs at hmem ⊢ with h1 h2 h3
    · simp at hmem
    · simp at hmem
    · cases hl : (login_to_procare env.loginResp).1 with
      | none => rfl
      | some a => rfl
    · simp at hmem

/-- A successful login response. -/
def respOk : HttpResponse := { status := 200, body := "{}", jsonAuth := some authOk }

/-- A run environment in which login succeeds but every download fails. -/
def envC3w : CliEnv :=
  { date_from := none, date_to := none, strptimeOk := fun _ => true,
    credsPresent := true, loginResp := some respOk, kidsResp := .ok [],
    server := fun _ => .error (), nowDate := "2025-10-12", nowTs := "x",
    dparse := fun _ => none, dl := fun _ => false }

/-- C3 witness: a run with failed downloads still exits 0. -/
theorem claim_C3_witness : exitCode (pymain envC3w) = 0 := by
  by_contra hne
  rcases (claim_C3_amended envC3w).1.mp hne with ⟨ha, _⟩ | ⟨ha, _⟩ <;>
    exact absurd ha (by decide)

/-! ## Standalone entry point of dashboard_scraper.py (lines 350-361) -/

/-- The names bound at module level in dashboard_scraper.py: the imports of
lines 3-9 and the `def`s of the module. -/
def scraperModuleNames : List String :=
  ["requests", "json", "os", "datetime", "re", "time", "parser",
   "get_kid_ids", "get_dashboard_photos", "parse_date_for_folder",
   "extract_filename_from_url", "download_media", "download_all_media"]

/-- The function name the `__main__` block calls (line 356). -/
def scraperMainCallee : String := "download_all_photos"

/-- The exception classes the `__main__` block's `try` handles
(lines 358-361). -/
def scraperMainHandledExceptions : List String :=
  ["FileNotFoundError", "json.JSONDecodeError"]

/-- Outcome of running `python dashboard_scraper.py`. -/
inductive ScraperMainOutcome where
  | handled (msg : String)
  | uncaughtNameError (name : String)
  | completed
deriving DecidableEq

/-- The `__main__` block of dashboard_scraper.py: open and parse
auth_session.json (`none` = file missing, `some none` = malformed JSON,
both handled by the `except` clauses), then call `download_all_photos` —
a name bound nowhere at module level, so the call raises `NameError`,
which is not among the handled exception classes and escapes. -/
def scraper_main (file : Option (Option AuthData)) : ScraperMainOutcome :=
  match file with
  | none =>
    .handled "Error: auth_session.json not found. Please run login.py first."
  | some none => .handled "Error: Invalid auth_session.json file."
  | some (some _) =>
    if scraperMainCallee ∈ scraperModuleNames then .completed
    else .uncaughtNameError scraperMainCallee

/-- C10: with a present, well-formed auth_session.json the standalone entry
point dies with an unhandled `NameError` — `download_all_photos` is not
defined anywhere in the module and `NameError` is not among the handled
exception classes; only a missing or malformed session file reaches a
handled, reported error. -/
theorem claim_C10 :
    scraperMainCallee ∉ scraperModuleNames ∧
    "NameError" ∉ scraperMainHandledExceptions ∧
    (∀ a : AuthData,
      scraper_main (some (some a)) = .uncaughtNameError "download_all_photos") ∧
    scraper_main none =
      .handled "Error: auth_session.json not found. Please run login.py first." ∧
    scraper_main (some none) = .handled "Error: Invalid auth_session.json file." := by
  refine ⟨by decide, by decide, fun a => rfl, rfl, rfl⟩

/-- C7 witness: the trace equality at a concrete one-item batch. -/
theorem claim_C7_witness :
    (downloadBatch (fun _ => true) [mediaStub] 1).2.2 =
      (List.range' 1 1).flatMap (fun i =>
        (if 1 < i ∧ 100 ∣ (i - 1) then [DlEvent.pause 120] else []) ++
        [DlEvent.attempt i true]) :=
  (claim_C7 (fun _ => true) [mediaStub]).1

/-- C10 witness: the standalone entry point at a concrete auth bundle. -/
theorem claim_C10_witness :
    scraper_main (some (some authOk)) =
      .uncaughtNameError "download_all_photos" :=
  claim_C10.2.2.1 authOk
